import Mathlib

/-!
Verification development for the multi-protocol file server plugin
(`src/main.py`).  The Python code is shallowly embedded: the POSIX
`os.path` string functions used by the server are ported verbatim as
executable Lean functions over `List Char`/`String`, the filesystem is an
explicit state record that the handlers read and update, and each Flask
handler (`browse`, `upload`, `download`) and the server orchestrator
(`start_servers`) becomes a pure Lean function over that state.
Percent-decoding (`urllib.parse.unquote`) is modelled at the byte level
for ASCII data, and Python's `str.lower` as per-character ASCII lowering,
which is exact for the inputs the theorems use.
-/

namespace FileServer

/-! ### POSIX path primitives (ports of `posixpath` functions) -/

/-- Port of `os.path.isabs` on POSIX: the path starts with `'/'`. -/
def isabs (p : String) : Bool :=
  match p.toList with
  | c :: _ => c == '/'
  | [] => false

/-- Test `p.endswith('/')`, as `posixpath.join` uses it. -/
def endsWithSlash (p : String) : Bool :=
  match p.toList.reverse with
  | c :: _ => c == '/'
  | [] => false

/-- Port of `os.path.basename` on POSIX: everything after the last `'/'`
(`p[p.rfind('/')+1:]`), computed on the reversed character list. -/
def basenameL (l : List Char) : List Char :=
  (l.reverse.takeWhile (fun c => c != '/')).reverse

def basename (p : String) : String := ⟨basenameL p.toList⟩

/-- Port of `os.path.dirname` on POSIX: `head = p[:i]` for `i = p.rfind('/')+1`;
if `head` is nonempty and not all slashes, its trailing slashes are
stripped. -/
def dirnameL (l : List Char) : List Char :=
  let rest := l.reverse.dropWhile (fun c => c != '/')
  if rest.isEmpty then []
  else if rest.all (fun c => c == '/') then rest.reverse
  else (rest.dropWhile (fun c => c == '/')).reverse

def dirname (p : String) : String := ⟨dirnameL p.toList⟩

/-- Two-argument `os.path.join` on POSIX. -/
def join (a b : String) : String :=
  if isabs b then b
  else if a = "" || endsWithSlash a then a ++ b
  else a ++ "/" ++ b

/-- Port of `os.path.splitdrive` on POSIX: the drive is always empty. -/
def splitdrive (p : String) : String × String := ("", p)

/-- Python `str.split('/')`. -/
def splitSlash : List Char → List (List Char)
  | [] => [[]]
  | c :: rest =>
    match splitSlash rest with
    | [] => [[]]
    | comp :: comps => if c = '/' then [] :: comp :: comps else (c :: comp) :: comps

/-- One step of `posixpath.normpath`'s component loop: skip empty and `"."`
components, push ordinary components, and let `".."` pop the previous
component (or survive / vanish at the start, depending on absoluteness).
The accumulator holds the emitted components in reverse. -/
def normStep (initialSlashes : Nat) (acc : List (List Char)) (comp : List Char) :
    List (List Char) :=
  if comp = [] || comp = ['.'] then acc
  else if comp ≠ ['.', '.'] || (initialSlashes = 0 && acc = [])
      || (acc.head? = some ['.', '.']) then comp :: acc
  else acc.tail

/-- Intersperse components with `'/'` (Python `'/'.join`). -/
def joinComps : List (List Char) → List Char
  | [] => []
  | [c] => c
  | c :: cs => c ++ '/' :: joinComps cs

/-- Port of `posixpath.normpath`, clause by clause. -/
def normpath (p : String) : String :=
  if p = "" then "."
  else
    let l := p.toList
    let initialSlashes : Nat :=
      match l with
      | '/' :: '/' :: '/' :: _ => 1
      | '/' :: '/' :: _ => 2
      | '/' :: _ => 1
      | _ => 0
    let comps := splitSlash l
    let newComps := (comps.foldl (normStep initialSlashes) []).reverse
    let out := List.replicate initialSlashes '/' ++ joinComps newComps
    if out = [] then "." else ⟨out⟩

/-- Port of `urllib.parse.unquote`, modelled at the code-unit level: a `'%'`
followed by two hex digits decodes to that byte, anything else is kept.
This agrees with Python on ASCII data. -/
def hexVal (c : Char) : Option Nat :=
  if '0' ≤ c ∧ c ≤ '9' then some (c.toNat - '0'.toNat)
  else if 'a' ≤ c ∧ c ≤ 'f' then some (c.toNat - 'a'.toNat + 10)
  else if 'A' ≤ c ∧ c ≤ 'F' then some (c.toNat - 'A'.toNat + 10)
  else none

def unquoteL : List Char → List Char
  | [] => []
  | '%' :: a :: b :: rest =>
    match hexVal a, hexVal b with
    | some ha, some hb => Char.ofNat (16 * ha + hb) :: unquoteL rest
    | _, _ => '%' :: unquoteL (a :: b :: rest)
  | c :: rest => c :: unquoteL rest

def unquote (p : String) : String := ⟨unquoteL p.toList⟩

/-! ### Filesystem state

The handlers observe the filesystem through three views: the content of
regular files, which paths name directories, and the outcome of
`os.scandir` on a path.  Paths are kept as the literal strings the code
passes to the OS; concrete instantiations list every alias they rely on. -/

/-- One `os.DirEntry` as `browse` reads it: `entry.name`, `entry.path`,
`entry.is_dir()`, `entry.is_file()` and `entry.stat().st_size`. -/
structure ScanEntry where
  name : String
  path : String
  is_dir : Bool
  is_file : Bool
  st_size : Nat

/-- Outcome of `os.scandir(path)`: a listing, a `PermissionError` (the
only exception `browse` catches), or some other `OSError` (e.g.
`NotADirectoryError`, `FileNotFoundError`) that propagates out. -/
inductive ScanOutcome where
  | ok (entries : List ScanEntry) : ScanOutcome
  | permissionError : ScanOutcome
  | otherError (name : String) : ScanOutcome

structure FS where
  /-- Content of the regular file a path names, if any. -/
  content : String → Option String
  /-- Whether the path names a directory. -/
  dirAt : String → Bool
  /-- What `os.scandir` returns on the path. -/
  scandir : String → ScanOutcome

/-- Port of `os.path.exists`: the path names a file or a directory. -/
def FS.existsAt (fs : FS) (p : String) : Bool :=
  (fs.content p).isSome || fs.dirAt p

/-- Port of `os.path.isfile`: the path names a regular file. -/
def FS.isfile (fs : FS) (p : String) : Bool := (fs.content p).isSome

/-- Model of `os.makedirs(p, exist_ok=True)`: fails on the empty path
(`FileNotFoundError` from `mkdir('')`) and when a non-directory already
occupies the path (`FileExistsError` survives `exist_ok` because
`isdir` is false); otherwise records the path as a directory.  Creation
of intermediate ancestors is not tracked: no theorem inspects them. -/
def FS.makedirs (fs : FS) (p : String) : Except String FS :=
  if p = "" then .error "FileNotFoundError"
  else if (fs.content p).isSome && !fs.dirAt p then .error "FileExistsError"
  else .ok { fs with dirAt := fun q => q = p || fs.dirAt q }

/-- Model of `FileStorage.save(dst)`: opening an existing directory for writing
raises `IsADirectoryError`; otherwise the bytes are written.  Other
I/O failures (permissions, missing ancestors) are outside the model. -/
def FS.save (fs : FS) (p : String) (data : String) : Except String FS :=
  if fs.dirAt p then .error "IsADirectoryError"
  else .ok { fs with content := fun q => if q = p then some data else fs.content q }

/-! ### Root enumeration and path resolution (`get_system_roots`, `browse`) -/

/-- Port of `get_system_roots` on a POSIX host: the single root `/`. -/
def get_system_roots_posix : List (String × String) := [("/", "/")]

/-- Value of `next(iter(self.get_system_roots().values()))` on POSIX. -/
def fallbackRoot : String :=
  ((get_system_roots_posix.map Prod.snd).headD "/")

/-- The path-resolution step of `browse` (lines 582–587): no path segment
means the fallback root; otherwise percent-decode and keep the result
only when it is absolute and exists, else fall back. -/
def resolve (fs : FS) (seg : Option String) : String :=
  match seg with
  | none => fallbackRoot
  | some raw =>
    let cp := unquote raw
    if !isabs cp || !fs.existsAt cp then fallbackRoot else cp

/-- The parent computation of `browse` (line 589):
`os.path.dirname(current_path)` unless `current_path` equals
`splitdrive(current_path)[0] + os.sep`. -/
def parent_path (cp : String) : Option String :=
  if cp ≠ (splitdrive cp).1 ++ "/" then some (dirname cp) else none

/-! ### Directory listing (`browse` lines 591–602) -/

/-- A row of the rendered listing.  The sentinel row built on
`PermissionError` carries only `name` and `is_dir`, so `path` and `size`
are optional.  `size` is `none` where the Python dict holds `"-"`. -/
structure Item where
  name : String
  path : Option String
  is_dir : Bool
  size : Option Nat
deriving DecidableEq, Repr

def toItem (e : ScanEntry) : Item :=
  { name := e.name, path := some e.path, is_dir := e.is_dir,
    size := if e.is_file then some e.st_size else none }

/-- The sentinel row produced under `except PermissionError`. -/
def restrictedItem : Item :=
  { name := "权限不足，无法访问", path := none, is_dir := false, size := none }

/-- Python string `<=`: lexicographic on code points. -/
def lexLE : List Char → List Char → Bool
  | [], _ => true
  | _ :: _, [] => false
  | a :: as, b :: bs =>
    if a.toNat < b.toNat then true
    else if b.toNat < a.toNat then false
    else lexLE as bs

/-- Python `str.lower` restricted to ASCII, applied per character. -/
def lowerL (l : List Char) : List Char := l.map Char.toLower

/-- The sort relation induced by the key
`(not item["is_dir"], item["name"].lower())` under Python tuple
comparison (`False < True`, strings by code point). -/
def itemLE (x y : Item) : Bool :=
  if (!x.is_dir) = (!y.is_dir) then lexLE (lowerL x.name.toList) (lowerL y.name.toList)
  else !y.is_dir

/-- The listing block of `browse`: scan, build the row dicts, sort by
`(not is_dir, name.lower())`; a `PermissionError` yields the sentinel
row, any other `OSError` propagates. -/
def browseItems (fs : FS) (cp : String) : Except String (List Item) :=
  match fs.scandir cp with
  | .ok entries => .ok ((entries.map toItem).mergeSort itemLE)
  | .permissionError => .ok [restrictedItem]
  | .otherError e => .error e

/-! ### Upload handler (`upload`, lines 613–643) -/

/-- An HTTP response of the upload handler together with the filesystem
it leaves behind. -/
structure UploadResult where
  status : Nat
  body : String
  fs : FS

/-- The `upload` route.  `filePresent` models `'file' in request.files`,
`fn` the client's `file.filename`, `cp` the verbatim
`request.form.get('current_path', '')`, `data` the uploaded bytes.
The handler rejects a missing file part and an empty or
basename-empty file name, then joins `cp` with `basename(fn)`,
creates `cp` and writes — with no containment check on the final path
(the source's comment announces one, but none is performed). -/
def upload (fs : FS) (filePresent : Bool) (cp fn data : String) : UploadResult :=
  if !filePresent then ⟨400, "没有文件", fs⟩
  else if fn = "" then ⟨400, "没有选择文件", fs⟩
  else
    let filename := basename fn
    if filename = "" then ⟨400, "无效的文件名", fs⟩
    else
      let save_path := join cp filename
      match fs.makedirs cp with
      | .error e => ⟨500, "保存失败: " ++ e, fs⟩
      | .ok fs1 =>
        match fs1.save save_path data with
        | .error e => ⟨500, "保存失败: " ++ e, fs⟩
        | .ok fs2 => ⟨200, "上传成功", fs2⟩

/-- The save path `upload` computes for a request, for stating where the
write is attempted. -/
def uploadSavePath (cp fn : String) : String := join cp (basename fn)

/-! ### Download handler (`download`, lines 645–659) -/

inductive DownloadResult where
  | notFound (body : String) (status : Nat) : DownloadResult
  | stream (data : String) (download_name : String) : DownloadResult
deriving DecidableEq, Repr

/-- The `download` route: percent-decode the path segment; a path that is
not an existing regular file yields the 404 text, otherwise
`send_file` streams the bytes with `download_name = basename(path)`. -/
def download (fs : FS) (raw : String) : DownloadResult :=
  let cp := unquote raw
  if !fs.isfile cp then .notFound "文件不存在" 404
  else .stream (((fs.content cp).getD "")) (basename cp)

/-! ### Configuration and per-service roots -/

structure PluginConfig where
  http_port : Nat := 8080
  ftp_port : Nat := 2121
  webdav_port : Nat := 8081
  default_root : Option String := none

/-- Python's `x or y` on an optional string: the override wins unless it
is absent or empty (falsy). -/
def orElseStr (o : Option String) (d : String) : String :=
  match o with
  | some s => if s = "" then d else s
  | none => d

/-- Root of `run_ftp_server`:
`self.default_root or next(iter(self.get_system_roots().values()))`. -/
def ftp_root_dir (cfg : PluginConfig) : String :=
  orElseStr cfg.default_root fallbackRoot

/-- Root of `run_webdav_server`: the same expression. -/
def webdav_root_dir (cfg : PluginConfig) : String :=
  orElseStr cfg.default_root fallbackRoot

/-! ### Orchestrator (`start_servers`, lines 700–710)

`start_servers` builds one daemon thread per protocol and starts each in
turn; `Thread.start` never raises — whatever the thread's target raises
happens inside the thread and kills only that thread.  The model maps
each service to the fate of its own thread; starting happens once, with
no retry loop.  The three targets differ: `serve` (waitress) and
`ThreadedFTPServer` bind their port and then serve forever, so those
threads die exactly when their port is already bound; the WebDAV target
dies before ever binding — `WsgiDAVApp(dav_config)` rejects the
top-level `user_mapping` key (wsgidav ≥ 3), and `WsgiDAVApp` has no
`run()` method in any release, so `app.run()` raises `AttributeError`
even if construction succeeded. -/

inductive ThreadState where
  | running : ThreadState
  | failed : ThreadState
deriving DecidableEq, Repr

/-- Fate of the HTTP thread: `serve(app, port=..., threads=10)` binds the
port and serves forever; a busy port raises inside the thread. -/
def run_http_server (busy : Nat → Bool) (port : Nat) : ThreadState :=
  if busy port then .failed else .running

/-- Fate of the FTP thread: `ThreadedFTPServer((host, port), handler)`
binds in the constructor, then `serve_forever()`. -/
def run_ftp_server (busy : Nat → Bool) (port : Nat) : ThreadState :=
  if busy port then .failed else .running

/-- Fate of the WebDAV thread: it dies unconditionally, before binding —
`WsgiDAVApp(dav_config)` rejects the deprecated top-level
`user_mapping` key, and `app.run()` does not exist on `WsgiDAVApp`. -/
def run_webdav_server : ThreadState := .failed

/-- Port of `start_servers`: the three protocol threads, each fate
determined only by its own target and port. -/
def start_servers (busy : Nat → Bool) (cfg : PluginConfig) :
    List (String × ThreadState) :=
  [("http", run_http_server busy cfg.http_port),
   ("ftp", run_ftp_server busy cfg.ftp_port),
   ("webdav", run_webdav_server)]

/-! ### Windows root enumeration (`get_system_roots`, Windows branch) -/

/-- Port of `ntpath.splitdrive` restricted to drive-letter paths (the shapes
`win32api.GetLogicalDriveStrings` produces); UNC prefixes are passed
through unsplit as in the source of interest. -/
def windows_splitdrive (p : String) : String × String :=
  match p.toList with
  | a :: b :: rest =>
    if (b = '/' ∧ a = '/') ∨ (b = '\\' ∧ a = '\\') then ("", p)
    else if b = ':' then (⟨[a, b]⟩, ⟨rest⟩)
    else ("", p)
  | _ => ("", p)

/-- The Windows branch of `get_system_roots`:
`{drive[:2]: drive for drive in drives}`. -/
def get_system_roots_windows (drives : List String) : List (String × String) :=
  drives.map (fun d => (⟨d.toList.take 2⟩, d))

/-- The `browse` parent computation as it would run on Windows, where
`os.sep` is a backslash. -/
def windows_parent_is_none (cp : String) : Bool :=
  cp = (windows_splitdrive cp).1 ++ "\\"

/-! ### Concrete filesystems used by witnesses and counterexamples -/

/-- A host whose root holds one regular file `/notes.txt`; scanning the
file raises `NotADirectoryError`, as the OS does. -/
def fsNotes : FS :=
  { content := fun p => if p = "/notes.txt" then some "n" else none
  , dirAt := fun p => p = "/"
  , scandir := fun p =>
      if p = "/notes.txt" then .otherError "NotADirectoryError"
      else if p = "/" then .ok []
      else .otherError "FileNotFoundError" }

/-- A host with directories `/`, `/home` and `/locked`, where scanning
`/locked` is denied.  `/home/` (trailing slash) names the same existing
directory as `/home`, so both aliases exist. -/
def fsHome : FS :=
  { content := fun _ => none
  , dirAt := fun p => ["/", "/home", "/home/", "/locked"].contains p
  , scandir := fun p =>
      if p = "/locked" then .permissionError
      else if ["/", "/home", "/home/"].contains p then .ok []
      else .otherError "FileNotFoundError" }

/-- A host with directories `/`, `/srv`, `/srv/data`; the alias
`/srv/data/..` names the directory `/srv`, so it is a directory too. -/
def fsSrv : FS :=
  { content := fun _ => none
  , dirAt := fun p => ["/", "/srv", "/srv/data", "/srv/data/.."].contains p
  , scandir := fun _ => .ok [] }

/-- A host with directories `/` and `/data` and no files. -/
def fsData : FS :=
  { content := fun _ => none
  , dirAt := fun p => ["/", "/data"].contains p
  , scandir := fun _ => .ok [] }

/-- A bare host: only the root directory exists. -/
def fsBare : FS :=
  { content := fun _ => none
  , dirAt := fun p => p = "/"
  , scandir := fun p => if p = "/" then .ok [] else .otherError "FileNotFoundError" }

end FileServer

namespace FileServer

/-! ### Order lemmas for the listing sort -/

theorem lexLE_total (a b : List Char) : lexLE a b || lexLE b a := by
  induction a generalizing b with
  | nil => simp [lexLE]
  | cons x xs ih =>
    cases b with
    | nil => simp [lexLE]
    | cons y ys =>
      simp only [lexLE]
      rcases Nat.lt_trichotomy x.toNat y.toNat with h | h | h
      · simp [h, Nat.lt_asymm h]
      · simp [h, Nat.lt_irrefl, ih ys]
      · simp [h, Nat.lt_asymm h]

theorem lexLE_trans (a b c : List Char) (hab : lexLE a b) (hbc : lexLE b c) :
    lexLE a c := by
  induction a generalizing b c with
  | nil => simp [lexLE]
  | cons x xs ih =>
    cases b with
    | nil => simp [lexLE] at hab
    | cons y ys =>
      cases c with
      | nil => simp [lexLE] at hbc
      | cons z zs =>
        simp only [lexLE] at hab hbc ⊢
        by_cases hxy : x.toNat < y.toNat
        · by_cases hyz : y.toNat < z.toNat
          · simp [Nat.lt_trans hxy hyz]
          · by_cases hzy : z.toNat < y.toNat
            · simp [hyz, hzy] at hbc
            · have : y.toNat = z.toNat := Nat.le_antisymm (Nat.le_of_not_lt hzy) (Nat.le_of_not_lt hyz)
              simp [this ▸ hxy]
        · by_cases hyx : y.toNat < x.toNat
          · simp [hxy, hyx] at hab
          · have hxyEq : x.toNat = y.toNat := Nat.le_antisymm (Nat.le_of_not_lt hyx) (Nat.le_of_not_lt hxy)
            simp only [if_neg hxy, if_neg hyx] at hab
            by_cases hyz : y.toNat < z.toNat
            · simp [hxyEq ▸ hyz]
            · by_cases hzy : z.toNat < y.toNat
              · simp [hyz, hzy] at hbc
              · simp only [if_neg hyz, if_neg hzy] at hbc
                simp [hxyEq ▸ hyz, hxyEq ▸ hzy, ih ys zs hab hbc]

theorem itemLE_total (a b : Item) : itemLE a b || itemLE b a := by
  unfold itemLE
  cases ha : a.is_dir <;> cases hb : b.is_dir <;>
    simp [lexLE_total]

theorem itemLE_trans (a b c : Item) (hab : itemLE a b) (hbc : itemLE b c) :
    itemLE a c := by
  unfold itemLE at hab hbc ⊢
  cases ha : a.is_dir <;> cases hb : b.is_dir <;> cases hc : c.is_dir <;>
    simp_all <;>
    exact lexLE_trans _ _ _ hab hbc

/-! ### C4 / C5: the directory listing -/

/-- C4: for every directory that can be scanned, the listing is a
permutation of exactly its immediate children in which every directory
entry precedes every file entry, and entries of equal kind are in
ascending case-insensitive name order. -/
theorem browse_list_sorted_permutation (fs : FS) (cp : String)
    (entries : List ScanEntry) (h : fs.scandir cp = .ok entries) :
    ∃ items, browseItems fs cp = .ok items ∧
      items.Perm (entries.map toItem) ∧
      items.Pairwise (fun a b =>
        (a.is_dir = false → b.is_dir = false) ∧
        (a.is_dir = b.is_dir →
          lexLE (lowerL a.name.toList) (lowerL b.name.toList) = true)) := by
  refine ⟨(entries.map toItem).mergeSort itemLE, by simp [browseItems, h],
    List.mergeSort_perm _ _, ?_⟩
  have hs := List.sorted_mergeSort itemLE_trans itemLE_total (entries.map toItem)
  refine hs.imp ?_
  intro a b hle
  unfold itemLE at hle
  constructor
  · intro haf
    cases hbd : b.is_dir
    · rfl
    · rw [haf, hbd] at hle
      simp at hle
  · intro heq
    rw [heq] at hle
    simpa using hle

/-- Sample children of `/` on the demo host, deliberately unsorted and
mixing cases. -/
def demoEntries : List ScanEntry :=
  [⟨"b.TXT", "/b.TXT", false, true, 5⟩,
   ⟨"Zeta", "/Zeta", true, false, 0⟩,
   ⟨"alpha.txt", "/alpha.txt", false, true, 3⟩,
   ⟨"Apps", "/Apps", true, false, 0⟩]

/-- A demo host whose root holds `demoEntries`. -/
def fsDemo : FS :=
  { content := fun _ => none
  , dirAt := fun p => p = "/"
  , scandir := fun p => if p = "/" then .ok demoEntries else .otherError "FileNotFoundError" }

theorem browse_list_sorted_permutation_witness :
    ∃ items, browseItems fsDemo "/" = .ok items ∧
      items.Perm (demoEntries.map toItem) ∧
      items.Pairwise (fun a b =>
        (a.is_dir = false → b.is_dir = false) ∧
        (a.is_dir = b.is_dir →
          lexLE (lowerL a.name.toList) (lowerL b.name.toList) = true)) :=
  browse_list_sorted_permutation fsDemo "/" demoEntries rfl

/-- C5: a permission denial while scanning does not propagate: the
listing is the single sentinel row. -/
theorem browse_permission_sentinel (fs : FS) (cp : String)
    (h : fs.scandir cp = .permissionError) :
    browseItems fs cp = .ok [restrictedItem] := by
  simp [browseItems, h]

theorem browse_permission_sentinel_witness :
    browseItems fsHome "/locked" = .ok [restrictedItem] :=
  browse_permission_sentinel fsHome "/locked" rfl

/-! ### C2: path resolution -/

/-- C2 counterexample: the raw path `/notes.txt` decodes to an existing
absolute path that is **not** a directory, yet `browse` keeps it instead
of substituting the fallback root, and the subsequent scan fails with an
uncaught `NotADirectoryError` — an error the caller sees. -/
theorem resolve_keeps_existing_file :
    resolve fsNotes (some "/notes.txt") = "/notes.txt" ∧
    fsNotes.dirAt "/notes.txt" = false ∧
    resolve fsNotes (some "/notes.txt") ≠ fallbackRoot ∧
    browseItems fsNotes (resolve fsNotes (some "/notes.txt")) =
      .error "NotADirectoryError" := by
  refine ⟨rfl, by decide, by decide, rfl⟩

/-- C2 amended: resolution never fails and always lands on an absolute
existing path — but the validity test is existence, not
directory-ness: the fallback root is substituted exactly when the
decoded path is not absolute or does not exist at all, so an existing
absolute file survives resolution. -/
theorem resolve_total_fallback (fs : FS) (seg : Option String)
    (hroot : fs.dirAt fallbackRoot = true) :
    isabs (resolve fs seg) = true ∧
    fs.existsAt (resolve fs seg) = true ∧
    (∀ r, seg = some r →
      (isabs (unquote r) = false ∨ fs.existsAt (unquote r) = false) →
      resolve fs seg = fallbackRoot) := by
  have hex : fs.existsAt fallbackRoot = true := by
    simp [FS.existsAt, hroot]
  cases seg with
  | none =>
    refine ⟨rfl, hex, ?_⟩
    intro r hr
    cases hr
  | some raw =>
    by_cases hkeep : (!isabs (unquote raw) || !fs.existsAt (unquote raw)) = true
    · have hres : resolve fs (some raw) = fallbackRoot := by
        simp only [resolve]
        rw [if_pos hkeep]
      rw [hres]
      refine ⟨rfl, hex, fun r hr _ => rfl⟩
    · have hpair : isabs (unquote raw) = true ∧ fs.existsAt (unquote raw) = true := by
        rcases Bool.eq_false_or_eq_true (isabs (unquote raw)) with h1 | h1 <;>
          rcases Bool.eq_false_or_eq_true (fs.existsAt (unquote raw)) with h2 | h2 <;>
          simp [h1, h2] at hkeep ⊢
      have habs : isabs (unquote raw) = true := hpair.1
      have hexu : fs.existsAt (unquote raw) = true := hpair.2
      have hres : resolve fs (some raw) = unquote raw := by
        simp only [resolve]
        rw [if_neg hkeep]
      rw [hres]
      refine ⟨habs, hexu, ?_⟩
      intro r hr hbad
      cases hr
      rcases hbad with hb | hb
      · rw [habs] at hb; cases hb
      · rw [hexu] at hb; cases hb

theorem resolve_total_fallback_witness :
    isabs (resolve fsBare (some "relative/path")) = true ∧
    fsBare.existsAt (resolve fsBare (some "relative/path")) = true ∧
    (∀ r, (some "relative/path" : Option String) = some r →
      (isabs (unquote r) = false ∨ fsBare.existsAt (unquote r) = false) →
      resolve fsBare (some "relative/path") = fallbackRoot) :=
  resolve_total_fallback fsBare (some "relative/path") rfl

/-! ### C3: the per-service roots -/

def cfgOverride : PluginConfig := { default_root := some "/srv" }

/-- C3 counterexample: with a configured root override, the FTP and
WebDAV services are rooted at the override, but the web service's
browse fallback is still the first enumerated system root — the three
services do not share one root value. -/
theorem http_root_ignores_override :
    ftp_root_dir cfgOverride = "/srv" ∧
    webdav_root_dir cfgOverride = "/srv" ∧
    resolve fsSrv none = "/" ∧
    ftp_root_dir cfgOverride ≠ resolve fsSrv none := by
  refine ⟨rfl, rfl, rfl, by decide⟩

/-- C3 amended: the FTP and WebDAV services always agree on one root
value (the nonempty override if configured, else the first system
root); the web service's fallback root is always the first system
root, regardless of the override; hence all three services agree
exactly when the shared FTP/WebDAV root is the first system root —
that is, when the override is unset, empty (falsy under Python `or`),
or itself the first system root. -/
theorem ftp_webdav_share_root (cfg : PluginConfig) (fs : FS) :
    ftp_root_dir cfg = webdav_root_dir cfg ∧
    resolve fs none = fallbackRoot ∧
    (ftp_root_dir cfg = fallbackRoot ↔
      (cfg.default_root = none ∨ cfg.default_root = some "" ∨
       cfg.default_root = some fallbackRoot)) := by
  refine ⟨rfl, rfl, ?_⟩
  cases hdr : cfg.default_root with
  | none => simp [ftp_root_dir, orElseStr, hdr]
  | some s =>
    by_cases hs : s = ""
    · subst hs
      simp [ftp_root_dir, orElseStr, hdr]
    · simp [ftp_root_dir, orElseStr, hdr, hs]

theorem ftp_webdav_share_root_witness :
    ftp_root_dir {} = webdav_root_dir {} ∧
    resolve fsBare none = fallbackRoot ∧
    (ftp_root_dir {} = fallbackRoot ↔
      (({} : PluginConfig).default_root = none ∨
       ({} : PluginConfig).default_root = some "" ∨
       ({} : PluginConfig).default_root = some fallbackRoot)) :=
  ftp_webdav_share_root {} fsBare

/-! ### C7: the download handler -/

/-- C7: `download` percent-decodes its path segment; whenever the decoded
path is not an existing regular file — in particular whenever it names
a directory — the response is the 404 text and never a stream; on an
existing regular file it streams the bytes with
`download_name = basename(path)`. -/
theorem download_file_or_404 (fs : FS) (raw : String) :
    (fs.isfile (unquote raw) = false →
      download fs raw = .notFound "文件不存在" 404) ∧
    (∀ dat, fs.content (unquote raw) = some dat →
      download fs raw = .stream dat (basename (unquote raw))) := by
  constructor
  · intro hnof
    simp [download, hnof]
  · intro dat hdat
    have hf : fs.isfile (unquote raw) = true := by
      simp [FS.isfile, hdat]
    simp [download, hf, hdat]

theorem download_file_or_404_witness :
    (fsNotes.isfile (unquote "/") = false →
      download fsNotes "/" = .notFound "文件不存在" 404) ∧
    (∀ dat, fsNotes.content (unquote "/") = some dat →
      download fsNotes "/" = .stream dat (basename (unquote "/"))) :=
  download_file_or_404 fsNotes "/"

/-! ### C9: the orchestrator -/

/-- C9, evidence at the failing input: with all three requested ports
free, `start_servers` does **not** yield three running services — the
WebDAV thread dies even though its port is free (its target fails
before binding: `WsgiDAVApp` rejects the top-level `user_mapping`
config and has no `run()` method), while the HTTP and FTP threads run.
The claim, the startup banner that announces the WebDAV URL, and the
docstring of `run_webdav_server` all say the WebDAV service starts. -/
theorem start_servers_webdav_always_dead (cfg : PluginConfig) (busy : Nat → Bool)
    (hh : busy cfg.http_port = false) (hf : busy cfg.ftp_port = false)
    (_hw : busy cfg.webdav_port = false) :
    start_servers busy cfg =
      [("http", .running), ("ftp", .running), ("webdav", .failed)] := by
  simp [start_servers, run_http_server, run_ftp_server, run_webdav_server, hh, hf]

theorem start_servers_webdav_always_dead_witness :
    start_servers (fun _ => false) {} =
      [("http", .running), ("ftp", .running), ("webdav", .failed)] :=
  start_servers_webdav_always_dead {} (fun _ => false) rfl rfl rfl

/-! ### Helper lemmas about the path primitives -/

theorem mem_takeWhile_pred {α} (p : α → Bool) :
    ∀ (l : List α) (a : α), a ∈ l.takeWhile p → p a := by
  intro l
  induction l with
  | nil => intro a h; simp [List.takeWhile] at h
  | cons x xs ih =>
    intro a h
    rw [List.takeWhile_cons] at h
    by_cases hp : p x
    · rw [if_pos hp] at h
      rcases List.mem_cons.mp h with rfl | h2
      · exact hp
      · exact ih a h2
    · rw [if_neg hp] at h
      simp at h

theorem basenameL_no_slash (l : List Char) : ∀ c ∈ basenameL l, c ≠ '/' := by
  intro c hc
  unfold basenameL at hc
  rw [List.mem_reverse] at hc
  have := mem_takeWhile_pred _ _ _ hc
  simpa using this

/-- A basename never begins with a separator, so `os.path.join` never
discards the directory in favour of it. -/
theorem isabs_basename (p : String) : isabs (basename p) = false := by
  unfold isabs basename
  cases hb : basenameL p.toList with
  | nil => rfl
  | cons c t =>
    have hc : c ≠ '/' := basenameL_no_slash p.toList c (by rw [hb]; exact List.mem_cons_self _ _)
    simpa using hc

theorem str_append_ne_left (s t : String) (ht : t ≠ "") : s ++ t ≠ s := by
  intro h
  have hlen : (s ++ t).length = s.length := congrArg String.length h
  rw [String.length_append] at hlen
  have ht0 : t.length = 0 := by omega
  apply ht
  obtain ⟨d⟩ := t
  cases d with
  | nil => rfl
  | cons a l => simp [String.length] at ht0

/-- With a separator-free second argument, `join` only appends, so the
result is never the bare directory. -/
theorem join_ne_left (cp bn : String) (hbn : bn ≠ "") (habs : isabs bn = false) :
    join cp bn ≠ cp := by
  unfold join
  rw [if_neg (by simp [habs])]
  by_cases h2 : cp = "" ∨ endsWithSlash cp
  · rw [if_pos (by simpa using h2)]
    exact str_append_ne_left cp bn hbn
  · rw [if_neg (by simpa using h2)]
    rw [String.append_assoc]
    exact str_append_ne_left cp ("/" ++ bn) (by
      intro hh
      have hz : ("/" ++ bn).length = 0 := by rw [hh]; rfl
      rw [String.length_append] at hz
      have h1 : ("/" : String).length = 1 := rfl
      omega)

theorem basenameL_append (l m : List Char) (hm : ∀ c ∈ m, c ≠ '/') :
    basenameL (l ++ '/' :: m) = m := by
  unfold basenameL
  rw [List.reverse_append, List.reverse_cons, List.append_assoc]
  rw [List.takeWhile_append_of_pos (by
    intro a ha
    rw [List.mem_reverse] at ha
    simpa using hm a ha)]
  rw [List.singleton_append, List.takeWhile_cons_of_neg (by simp)]
  simp

theorem basename_append (s rest : String) (hm : ∀ c ∈ rest.toList, c ≠ '/') :
    basename (s ++ "/" ++ rest) = rest := by
  unfold basename
  have hdata : (s ++ "/" ++ rest).toList = s.toList ++ '/' :: rest.toList := by
    simp [String.toList, String.data_append]
  rw [hdata, basenameL_append _ _ hm]
  rfl

/-! ### C10 / C1 / C8: the upload handler -/

/-- C10 amended: `upload` takes `current_path` verbatim — the theorem
quantifies over every nonempty client-chosen string `cp`, with no
resolution, absoluteness or root-containment hypothesis — creates the
directory and writes the file at `join cp (basename fn)`; a relative
`cp` therefore lands relative to the server process's working
directory.  (Empty `cp` is excluded: there `os.makedirs('')` raises
and the upload fails, see the counterexample.) -/
theorem upload_uses_path_verbatim (fs : FS) (cp fn data : String)
    (hcp : cp ≠ "") (hfn : fn ≠ "") (hbn : basename fn ≠ "")
    (hnotfile : fs.content cp = none)
    (hnotdir : fs.dirAt (join cp (basename fn)) = false) :
    upload fs true cp fn data =
      ⟨200, "上传成功",
        { content := fun q => if q = join cp (basename fn) then some data
                              else fs.content q
        , dirAt := fun q => q = cp || fs.dirAt q
        , scandir := fs.scandir }⟩ := by
  have hmk : fs.makedirs cp = .ok { fs with dirAt := fun q => q = cp || fs.dirAt q } := by
    unfold FS.makedirs
    rw [if_neg hcp, if_neg (by simp [hnotfile])]
  have hne : join cp (basename fn) ≠ cp :=
    join_ne_left cp (basename fn) hbn (isabs_basename fn)
  have hsv : ({ fs with dirAt := fun q => q = cp || fs.dirAt q } : FS).save
      (join cp (basename fn)) data =
      .ok { content := fun q => if q = join cp (basename fn) then some data
                                else fs.content q
          , dirAt := fun q => q = cp || fs.dirAt q
          , scandir := fs.scandir } := by
    unfold FS.save
    rw [if_neg (by simp [hne, hnotdir])]
  simp only [upload, Bool.not_true, if_neg hfn, if_neg hbn, hmk, hsv]
  simp

theorem upload_uses_path_verbatim_witness :
    upload fsBare true "sub" "report.txt" "hello" =
      ⟨200, "上传成功",
        { content := fun q => if q = join "sub" (basename "report.txt") then some "hello"
                              else fsBare.content q
        , dirAt := fun q => q = "sub" || fsBare.dirAt q
        , scandir := fsBare.scandir }⟩ :=
  upload_uses_path_verbatim fsBare "sub" "report.txt" "hello"
    (by decide) (by decide) (by decide) rfl rfl

/-- C10 counterexample: with an empty `current_path`, the upload is not
saved relative to the working directory — `os.makedirs('')` raises
`FileNotFoundError`, the handler answers 500, and nothing is written
(neither at the joined path nor anywhere else: the filesystem is
returned unchanged). -/
theorem upload_empty_current_path_fails :
    (upload fsBare true "" "report.txt" "hello").status = 500 ∧
    (upload fsBare true "" "report.txt" "hello").body = "保存失败: FileNotFoundError" ∧
    join "" "report.txt" = "report.txt" ∧
    (upload fsBare true "" "report.txt" "hello").fs.content "report.txt" = none ∧
    (upload fsBare true "" "report.txt" "hello").fs = fsBare := by
  refine ⟨rfl, rfl, rfl, rfl, rfl⟩

/-- Whether `p` lies at or textually below the directory `target`. -/
def underDir (target p : String) : Bool :=
  p = target || (target.toList ++ ['/']).isPrefixOf p.toList

/-- C1, evidence at the failing input: on the file name `".."` the
sanitizer keeps `".."` (its basename), `upload` computes the save path
`targetDirectory/..` — whose canonical form lies **outside** the
target directory — and, with no containment check anywhere, proceeds
to the write attempt, which dies on `IsADirectoryError` (a 500 "save
failed", not a rejection of the name or a containment violation). -/
theorem upload_attempts_write_outside_target :
    basename ".." = ".." ∧
    uploadSavePath "/srv/data" ".." = "/srv/data/.." ∧
    normpath (uploadSavePath "/srv/data" "..") = "/srv" ∧
    underDir "/srv/data" (normpath (uploadSavePath "/srv/data" "..")) = false ∧
    (upload fsSrv true "/srv/data" ".." "x").status = 500 ∧
    (upload fsSrv true "/srv/data" ".." "x").body = "保存失败: IsADirectoryError" := by
  refine ⟨rfl, rfl, by decide, by decide, rfl, rfl⟩

/-- C8: uploading `report.txt` with content `"hello"` into a directory
`D` (given in canonical form, with no trailing slash or percent
escapes) and then downloading `D/report.txt` streams back exactly
`"hello"`, under the suggested name `report.txt`. -/
theorem upload_download_roundtrip (fs : FS) (D : String)
    (hD : D ≠ "") (hsl : endsWithSlash D = false)
    (hdir : fs.dirAt D = true)
    (hnotdir : fs.dirAt (D ++ "/report.txt") = false)
    (hq : unquote (D ++ "/report.txt") = D ++ "/report.txt") :
    ∃ fs2, upload fs true D "report.txt" "hello" = ⟨200, "上传成功", fs2⟩ ∧
      download fs2 (D ++ "/report.txt") = .stream "hello" "report.txt" := by
  have hsplit : D ++ "/" ++ "report.txt" = D ++ "/report.txt" := by
    rw [String.append_assoc]
    rfl
  have hjoin : join D "report.txt" = D ++ "/report.txt" := by
    unfold join
    rw [if_neg (by decide), if_neg (by simp [hD, hsl])]
    exact hsplit
  have hmk : fs.makedirs D = .ok { fs with dirAt := fun q => q = D || fs.dirAt q } := by
    unfold FS.makedirs
    rw [if_neg hD, if_neg (by simp [hdir])]
  have hne : D ++ "/report.txt" ≠ D := str_append_ne_left D "/report.txt" (by decide)
  have hsv : ({ fs with dirAt := fun q => q = D || fs.dirAt q } : FS).save
      (D ++ "/report.txt") "hello" =
      .ok { content := fun q => if q = D ++ "/report.txt" then some "hello"
                                else fs.content q
          , dirAt := fun q => q = D || fs.dirAt q
          , scandir := fs.scandir } := by
    unfold FS.save
    rw [if_neg (by simp [hne, hnotdir])]
  refine ⟨{ content := fun q => if q = D ++ "/report.txt" then some "hello"
                                else fs.content q
          , dirAt := fun q => q = D || fs.dirAt q
          , scandir := fs.scandir }, ?_, ?_⟩
  · simp only [upload, Bool.not_true, if_neg (by decide : ¬("report.txt" : String) = ""),
      if_neg (by decide : ¬basename "report.txt" = ""), hmk]
    rw [show join D (basename "report.txt") = D ++ "/report.txt" from hjoin, hsv]
    rfl
  · have hbase : basename (D ++ "/report.txt") = "report.txt" := by
      rw [← hsplit]
      exact basename_append D "report.txt" (by decide)
    have hcontent :
        (if D ++ "/report.txt" = D ++ "/report.txt" then some "hello"
         else fs.content (D ++ "/report.txt")) = some "hello" := if_pos rfl
    unfold download
    rw [hq]
    simp only [FS.isfile, hcontent, Option.isSome_some, Bool.not_true]
    rw [if_neg (by simp), hbase]
    rfl

/-- A round trip on the demo host `fsData`, directory `/data`. -/
theorem upload_download_roundtrip_witness :
    ∃ fs2, upload fsData true "/data" "report.txt" "hello" = ⟨200, "上传成功", fs2⟩ ∧
      download fs2 ("/data" ++ "/report.txt") = .stream "hello" "report.txt" :=
  upload_download_roundtrip fsData "/data" (by decide) (by decide) (by decide)
    (by decide) (by decide)

/-! ### C6: the parent computation

An absolute path in canonical component form is `/c1/…/cn` with every
component nonempty and slash-free; `mkPathL` builds it.  The direct
ancestor of such a path is the path of all but the last component. -/

def mkPathL (comps : List (List Char)) : List Char := '/' :: joinComps comps

/-- Components are admissible path segments: nonempty and slash-free. -/
def cleanL (cs : List (List Char)) : Prop := ∀ c ∈ cs, c ≠ [] ∧ '/' ∉ c

theorem joinComps_concat (cs : List (List Char)) (c : List Char) (h : cs ≠ []) :
    joinComps (cs ++ [c]) = joinComps cs ++ '/' :: c := by
  induction cs with
  | nil => cases h rfl
  | cons x xs ih =>
    cases xs with
    | nil => simp [joinComps]
    | cons y ys =>
      have hrec := ih (by simp)
      show joinComps (x :: ((y :: ys) ++ [c])) = _
      rw [show x :: ((y :: ys) ++ [c]) = x :: y :: (ys ++ [c]) from rfl]
      show x ++ '/' :: joinComps (y :: (ys ++ [c])) = _
      rw [show (y :: (ys ++ [c])) = (y :: ys) ++ [c] from rfl, hrec]
      simp [joinComps]

theorem joinComps_last_ne_slash (cs : List (List Char)) (h : cs ≠ [])
    (hc : cleanL cs) :
    ∃ ch t, (joinComps cs).reverse = ch :: t ∧ ch ≠ '/' := by
  induction cs with
  | nil => cases h rfl
  | cons x xs ih =>
    cases xs with
    | nil =>
      obtain ⟨hne, hnm⟩ := hc x (List.mem_cons_self _ _)
      cases hrev : x.reverse with
      | nil =>
        exact absurd (by simpa using congrArg List.reverse hrev) hne
      | cons ch t =>
        refine ⟨ch, t, by simpa [joinComps] using hrev, fun hch => hnm ?_⟩
        have hmem : ch ∈ x.reverse := by rw [hrev]; exact List.mem_cons_self _ _
        rw [List.mem_reverse] at hmem
        exact hch ▸ hmem
    | cons y ys =>
      obtain ⟨ch, t, hrev, hch⟩ :=
        ih (by simp) (fun c hcm => hc c (List.mem_cons_of_mem _ hcm))
      refine ⟨ch, t ++ '/' :: x.reverse, ?_, hch⟩
      show (x ++ '/' :: joinComps (y :: ys)).reverse = _
      rw [List.reverse_append, List.reverse_cons, hrev]
      simp

theorem dirnameL_mkPathL (cs : List (List Char)) (c : List Char)
    (hclean : cleanL (cs ++ [c])) :
    dirnameL (mkPathL (cs ++ [c])) = mkPathL cs := by
  obtain ⟨hcne, hcnm⟩ := hclean c (by simp)
  have hcpred : ∀ a ∈ c.reverse, (a != '/') = true := by
    intro a ha
    rw [List.mem_reverse] at ha
    simp only [bne_iff_ne, ne_eq]
    exact fun hh => hcnm (hh ▸ ha)
  cases cs with
  | nil =>
    -- the path is `/c`; its parent is the root `/`
    show dirnameL ('/' :: joinComps [c]) = mkPathL []
    show dirnameL ('/' :: c) = mkPathL []
    unfold dirnameL
    rw [List.reverse_cons, List.dropWhile_append_of_pos hcpred]
    simp [mkPathL, joinComps]
  | cons x xs =>
    have hne : (x :: xs) ≠ [] := by simp
    have hcl : cleanL (x :: xs) := fun d hd => hclean d (List.mem_append_left _ hd)
    obtain ⟨ch, t, hrev, hch⟩ := joinComps_last_ne_slash (x :: xs) hne hcl
    show dirnameL ('/' :: joinComps ((x :: xs) ++ [c])) = mkPathL (x :: xs)
    rw [joinComps_concat (x :: xs) c hne]
    unfold dirnameL
    have hsh : ('/' :: (joinComps (x :: xs) ++ '/' :: c)).reverse =
        c.reverse ++ '/' :: ((joinComps (x :: xs)).reverse ++ ['/']) := by
      rw [List.reverse_cons, List.reverse_append, List.reverse_cons]
      simp
    rw [hsh, List.dropWhile_append_of_pos hcpred,
      List.dropWhile_cons_of_neg (by simp)]
    rw [hrev, List.cons_append]
    have hchb : (ch == '/') = false := by simpa using hch
    rw [if_neg (by simp), if_neg (by simp [hchb])]
    rw [List.dropWhile_cons_of_pos (by simp),
      List.dropWhile_cons_of_neg (by simp [hchb])]
    have hjc : joinComps (x :: xs) = (ch :: t).reverse := by
      rw [← hrev, List.reverse_reverse]
    simp [mkPathL, hjc]

theorem mkPathL_ne_root (cs : List (List Char)) (c : List Char)
    (hclean : cleanL (cs ++ [c])) :
    (⟨mkPathL (cs ++ [c])⟩ : String) ≠ "/" := by
  intro h
  have hdata : mkPathL (cs ++ [c]) = ['/'] := congrArg String.toList h
  obtain ⟨ch, t, hrev, hch⟩ := joinComps_last_ne_slash (cs ++ [c]) (by simp) hclean
  have : joinComps (cs ++ [c]) = [] := by
    have := congrArg List.tail hdata
    simpa [mkPathL] using this
  rw [this] at hrev
  simp at hrev

/-- C6 amended: the computed parent is `none` exactly at enumerated
roots — the POSIX root `/` and each Windows drive root `X:\` — and
for an absolute path in canonical component form (no trailing or
doubled separators, no `.`/`..` components) the computed parent is the
path with its final component removed: its direct ancestor directory.
Resolved paths that are not canonical (e.g. carrying a trailing slash)
are not covered: the counterexample shows the computed parent can then
be the same directory rather than an ancestor. -/
theorem parent_none_at_roots_and_ancestor_otherwise :
    (∀ pr ∈ get_system_roots_posix, parent_path pr.2 = none) ∧
    (∀ (drives : List String) (pr : String × String),
      (∀ d ∈ drives, ∃ ch : Char, d.toList = [ch, ':', '\\']) →
      pr ∈ get_system_roots_windows drives →
      windows_parent_is_none pr.2 = true) ∧
    (∀ (cs : List (List Char)) (c : List Char), cleanL (cs ++ [c]) →
      parent_path ⟨mkPathL (cs ++ [c])⟩ = some ⟨mkPathL cs⟩) := by
  refine ⟨?_, ?_, ?_⟩
  · intro pr hpr
    have : pr = ("/", "/") := by simpa [get_system_roots_posix] using hpr
    subst this
    rfl
  · intro drives pr hshape hpr
    simp only [get_system_roots_windows, List.mem_map] at hpr
    obtain ⟨d, hd, rfl⟩ := hpr
    obtain ⟨ch, hch⟩ := hshape d hd
    have hdstr : d = ⟨[ch, ':', '\\']⟩ := by
      cases d with
      | mk data => exact congrArg String.mk hch
    subst hdstr
    unfold windows_parent_is_none
    exact decide_eq_true rfl
  · intro cs c hclean
    unfold parent_path
    rw [if_pos (by simpa [splitdrive] using mkPathL_ne_root cs c hclean)]
    have : dirname ⟨mkPathL (cs ++ [c])⟩ = ⟨mkPathL cs⟩ := by
      unfold dirname
      exact congrArg String.mk (dirnameL_mkPathL cs c hclean)
    rw [this]

theorem parent_none_at_roots_and_ancestor_otherwise_witness :
    parent_path ("/", "/").2 = none ∧
    windows_parent_is_none ("C:", "C:\\").2 = true ∧
    parent_path ⟨mkPathL ([['h', 'o', 'm', 'e']] ++ [['u', 's', 'e', 'r']])⟩ =
      some ⟨mkPathL [['h', 'o', 'm', 'e']]⟩ :=
  ⟨parent_none_at_roots_and_ancestor_otherwise.1 ("/", "/") (by simp [get_system_roots_posix]),
   parent_none_at_roots_and_ancestor_otherwise.2.1 ["C:\\"] ("C:", "C:\\")
     (by intro d hd
         refine ⟨'C', ?_⟩
         simp only [List.mem_singleton] at hd
         subst hd
         rfl)
     (by simp [get_system_roots_windows]),
   parent_none_at_roots_and_ancestor_otherwise.2.2 [['h', 'o', 'm', 'e']] ['u', 's', 'e', 'r']
     (by intro d hd
         rcases List.mem_append.mp hd with h | h <;>
           rw [List.mem_singleton] at h <;> subst h <;>
           exact ⟨by decide, by decide⟩)⟩

/-- C6 counterexample: `/home/` (an existing directory given with a
trailing slash) is a resolved path different from the root `/`, yet the
computed parent `/home` is the **same** directory (identical canonical
form), not its direct ancestor. -/
theorem parent_of_trailing_slash_is_self :
    resolve fsHome (some "/home/") = "/home/" ∧
    resolve fsHome (some "/home/") ≠ "/" ∧
    parent_path "/home/" = some "/home" ∧
    normpath "/home" = normpath "/home/" := by
  refine ⟨rfl, by decide, by decide, by decide⟩

end FileServer
